import Mathlib

/-!
# Verification of the Bellaventure risk-rating pipeline

Shallow embedding of the risk-rating computation in
`example_of_type_of_script_contractor_would_edit.py`: the pivot-stage
zero-nullification, the derived-metric formula registry, the threshold-based
risk scorer, the aggregate rating, and the current-snapshot builder.

Nullable floating-point cells are modelled by `FVal`: a rational payload
(`num q`), the missing marker `nan` (pandas uses NaN for null), and the two
infinities, with IEEE-style propagation for the arithmetic and comparison
operators that the pipeline uses.  All operations used by the pipeline
(addition, multiplication by integer constants, division, comparisons) are
exact on rationals, so the rational payload is a faithful abstraction for
the properties verified here (null/infinity propagation, sign tests,
threshold comparisons).
-/

namespace RiskPipeline

/-- A nullable floating-point cell: NaN (pandas null), +inf, -inf, or a
finite value carried as an exact rational. -/
inductive FVal where
  | nan : FVal
  | inf : FVal
  | ninf : FVal
  | num : ℚ → FVal
deriving DecidableEq

/-- IEEE-style addition: NaN propagates, inf + (-inf) is NaN. -/
def fadd : FVal → FVal → FVal
  | .nan, _ => .nan
  | _, .nan => .nan
  | .inf, .ninf => .nan
  | .ninf, .inf => .nan
  | .inf, _ => .inf
  | _, .inf => .inf
  | .ninf, _ => .ninf
  | _, .ninf => .ninf
  | .num a, .num b => .num (a + b)

/-- IEEE-style negation. -/
def fneg : FVal → FVal
  | .nan => .nan
  | .inf => .ninf
  | .ninf => .inf
  | .num a => .num (-a)

/-- IEEE-style subtraction. -/
def fsub (a b : FVal) : FVal := fadd a (fneg b)

/-- IEEE-style multiplication: NaN propagates, inf * 0 is NaN. -/
def fmul : FVal → FVal → FVal
  | .nan, _ => .nan
  | _, .nan => .nan
  | .inf, .inf => .inf
  | .inf, .ninf => .ninf
  | .ninf, .inf => .ninf
  | .ninf, .ninf => .inf
  | .inf, .num b => if 0 < b then .inf else if b < 0 then .ninf else .nan
  | .num a, .inf => if 0 < a then .inf else if a < 0 then .ninf else .nan
  | .ninf, .num b => if 0 < b then .ninf else if b < 0 then .inf else .nan
  | .num a, .ninf => if 0 < a then .ninf else if a < 0 then .inf else .nan
  | .num a, .num b => .num (a * b)

/-- IEEE-style division, matching numpy semantics: NaN propagates,
a finite nonzero value divided by zero gives a signed infinity, 0/0 gives
NaN, and a finite value divided by an infinity gives 0. -/
def fdiv : FVal → FVal → FVal
  | .nan, _ => .nan
  | _, .nan => .nan
  | .inf, .inf => .nan
  | .inf, .ninf => .nan
  | .ninf, .inf => .nan
  | .ninf, .ninf => .nan
  | .inf, .num b => if b < 0 then .ninf else .inf
  | .ninf, .num b => if b < 0 then .inf else .ninf
  | .num _, .inf => .num 0
  | .num _, .ninf => .num 0
  | .num a, .num b =>
    if b = 0 then (if 0 < a then .inf else if a < 0 then .ninf else .nan)
    else .num (a / b)

/-- IEEE `<`: any comparison involving NaN is false. -/
def flt : FVal → FVal → Bool
  | .nan, _ => false
  | _, .nan => false
  | .inf, _ => false
  | .ninf, .ninf => false
  | .ninf, _ => true
  | .num _, .inf => true
  | .num _, .ninf => false
  | .num a, .num b => decide (a < b)

/-- IEEE `>`. -/
def fgt (a b : FVal) : Bool := flt b a

/-- IEEE `>=`: any comparison involving NaN is false. -/
def fge : FVal → FVal → Bool
  | .nan, _ => false
  | _, .nan => false
  | .inf, _ => true
  | .ninf, .ninf => true
  | .ninf, _ => false
  | .num _, .inf => false
  | .num _, .ninf => true
  | .num a, .num b => decide (b ≤ a)

/-- IEEE `==`: NaN compares unequal to everything, including itself. -/
def feq : FVal → FVal → Bool
  | .nan, _ => false
  | _, .nan => false
  | .inf, .inf => true
  | .ninf, .ninf => true
  | .num a, .num b => decide (a = b)
  | _, _ => false

/-- numpy `!=`: NaN compares unequal to everything. -/
def fne (a b : FVal) : Bool := !(feq a b)

/-- pandas `isnull` on a cell: NaN is null, infinities are not. -/
def isnull : FVal → Bool
  | .nan => true
  | _ => false

/-! ## Reshaper: zero-nullification after the pivot (`pivot_financial_data`)

The pivoted table is modelled column-wise: a list of (column name, cell list)
pairs.  `nullifyValueColumns` is the loop at the end of
`pivot_financial_data` that, for every column whose name starts with one of
the value-kind prefixes, replaces every exact 0 with NaN
(`pivoted_df[col].replace(0, np.nan)`). -/

/-- `s.startswith(p)` over the underlying character lists. -/
def strStarts (s p : String) : Bool := s.data.take p.data.length == p.data

/-- The column-name test from `pivot_financial_data`:
`any(col.startswith(substr) for substr in ['period_value_', 'ttm_avg_', 'pttm_avg_'])`. -/
def isValueKindCol (c : String) : Bool :=
  strStarts c "period_value_" || strStarts c "ttm_avg_" || strStarts c "pttm_avg_"

/-- `series.replace(0, np.nan)` on one column. -/
def replaceZeroNan (col : List FVal) : List FVal :=
  col.map (fun v => if v = .num 0 then .nan else v)

/-- The zero-nullification loop of `pivot_financial_data`, applied to every
column of the pivoted table whose name carries a value-kind prefix. -/
def nullifyValueColumns (t : List (String × List FVal)) : List (String × List FVal) :=
  t.map (fun p => if isValueKindCol p.1 then (p.1, replaceZeroNan p.2) else p)

/-! ## Metric Deriver (`DERIVED_METRICS`, `calculate_derived_metrics`)

Row-wise embedding of the formula registry.  pandas evaluates the formulas
column-vectorized, elementwise; a row-wise model of the elementwise
operations is equivalent.  A pivoted row is a record of the base columns
the formulas reference. -/

/-- The base columns of the pivoted table referenced by `DERIVED_METRICS`
and `RISK_FLAG_DEFINITIONS`. -/
structure PRow where
  ttm_avg_revenue : FVal
  ttm_avg_operating_income : FVal
  ttm_avg_costs_of_goods_sold : FVal
  ttm_avg_inventory : FVal
  pttm_avg_revenue : FVal
  period_value_cash : FVal
  period_value_accounts_receivable : FVal
  period_value_accounts_payable : FVal
  period_value_credit_cards : FVal
  period_value_ab_loan_balance : FVal
deriving DecidableEq

/-- `df['ttm_avg_revenue'] * 12`. -/
def ttm_revenue (r : PRow) : FVal := fmul r.ttm_avg_revenue (.num 12)

/-- `df['ttm_avg_operating_income'] * 12`. -/
def ttm_operating_income (r : PRow) : FVal := fmul r.ttm_avg_operating_income (.num 12)

/-- `df['ttm_avg_costs_of_goods_sold'] * 12`. -/
def ttm_costs_of_goods_sold (r : PRow) : FVal := fmul r.ttm_avg_costs_of_goods_sold (.num 12)

/-- `df['pttm_avg_revenue'] * 12`. -/
def pttm_revenue (r : PRow) : FVal := fmul r.pttm_avg_revenue (.num 12)

/-- `df['ttm_avg_revenue'] / df['pttm_avg_revenue'] - 1`. -/
def yoy_revenue_change (r : PRow) : FVal :=
  fsub (fdiv r.ttm_avg_revenue r.pttm_avg_revenue) (.num 1)

/-- The cash-to-burn ratio used inside `years_of_runway`:
`df['period_value_cash'] / (df['ttm_avg_operating_income'] * 12)`. -/
def cash_to_burn (r : PRow) : FVal :=
  fdiv r.period_value_cash (fmul r.ttm_avg_operating_income (.num 12))

/-- `np.where(cash / (ttm_avg_operating_income * 12) > 0, -1,
-(cash / (ttm_avg_operating_income * 12)))`. -/
def years_of_runway (r : PRow) : FVal :=
  if fgt (cash_to_burn r) (.num 0) then .num (-1) else fneg (cash_to_burn r)

/-- `df['period_value_ab_loan_balance'] / (df['ttm_avg_revenue'] * 12)`. -/
def ab_line_of_credit_as_percent_of_ttm_revenue (r : PRow) : FVal :=
  fdiv r.period_value_ab_loan_balance (fmul r.ttm_avg_revenue (.num 12))

/-- `df['ttm_avg_costs_of_goods_sold'] * 12 / df['ttm_avg_inventory']`. -/
def inventory_turns_ttm (r : PRow) : FVal :=
  fdiv (fmul r.ttm_avg_costs_of_goods_sold (.num 12)) r.ttm_avg_inventory

/-- The guarded denominator of `modified_quick_ratio`:
`np.where(AP + CC != 0, AP + CC, np.nan)`. -/
def mqr_denominator (r : PRow) : FVal :=
  let d := fadd r.period_value_accounts_payable r.period_value_credit_cards
  if fne d (.num 0) then d else .nan

/-- `(cash + AR) / np.where(AP + CC != 0, AP + CC, np.nan)`. -/
def modified_quick_ratio (r : PRow) : FVal :=
  fdiv (fadd r.period_value_cash r.period_value_accounts_receivable) (mqr_denominator r)

/-- A cell as produced by the pivot stage for a value-kind column: either
null, or a finite nonzero value (zeros were rewritten to NaN, and the
source holds finite floats). -/
def pivotedVal (v : FVal) : Prop := v = .nan ∨ ∃ q : ℚ, v = .num q ∧ q ≠ 0

/-! ## Missing-column behaviour of `calculate_derived_metrics`

For the configuration-error claims the registry is modelled abstractly: a
derived metric declares the list of columns its formula accesses (in access
order) and a column-valued formula.  `calculate_derived_metrics` evaluates
every formula over the *original* table (the code collects `new_columns`
from the unchanged `df` and concatenates once at the end); accessing a
missing column raises `KeyError`, which the code logs as
`Missing column for {metric}: {column}` and re-raises, aborting at the
first missing access. -/

/-- A derived-metric registry entry: the columns its formula accesses, in
access order, and the column it computes. -/
structure DerivedMetric where
  deps : List String
  formula : List (String × List FVal) → List FVal

/-- Accessing the declared columns in order; the first access to a column
absent from the table raises (`KeyError`), reported with the metric name. -/
def evalDeps (name : String) (deps : List String) (cols : List String) : Except String Unit :=
  match deps with
  | [] => .ok ()
  | d :: rest =>
    if d ∈ cols then evalDeps name rest cols
    else .error ("Missing column for " ++ name ++ ": " ++ d)

/-- The loop body of `calculate_derived_metrics`: compute each new column
from the original table, aborting at the first missing column access. -/
def calcNewColumns (registry : List (String × DerivedMetric))
    (t : List (String × List FVal)) : Except String (List (String × List FVal)) :=
  match registry with
  | [] => .ok []
  | (name, dm) :: rest =>
    match evalDeps name dm.deps (t.map Prod.fst) with
    | .error e => .error e
    | .ok _ =>
      match calcNewColumns rest t with
      | .error e => .error e
      | .ok ncs => .ok ((name, dm.formula t) :: ncs)

/-- `calculate_derived_metrics`: on success the new columns are concatenated
onto the table; the first missing column access aborts the whole stage. -/
def calculateDerivedMetrics (registry : List (String × DerivedMetric))
    (t : List (String × List FVal)) : Except String (List (String × List FVal)) :=
  match calcNewColumns registry t with
  | .error e => .error e
  | .ok ncs => .ok (t ++ ncs)

/-! ## Risk Scorer (`RISK_FLAG_DEFINITIONS`, `calculate_risk_ratings`) -/

/-- The second component of a rule tuple: a constant threshold, a
`(lower, upper)` pair for the `between` operator, or the name of a
comparison-target metric (the tuples with `compare_to_other_metric=True`). -/
inductive Threshold where
  | const : ℚ → Threshold
  | range : ℚ → ℚ → Threshold
  | metric : String → Threshold
deriving DecidableEq

/-- The comparison operator of a rule. -/
inductive RuleOp where
  | lt : RuleOp
  | gt : RuleOp
  | between : RuleOp
deriving DecidableEq

/-- One entry of `RISK_FLAG_DEFINITIONS`:
`(metric_name, threshold, operator, risk_points, [compare_to_other_metric])`. -/
structure RuleDef where
  metric : String
  threshold : Threshold
  op : RuleOp
  riskPoints : ℚ
  compare : Bool
deriving DecidableEq

/-- The metrics a rule requires: the primary metric, plus the threshold
(as a metric name) when `compare` is set — the `required_metrics` list of
`calculate_risk_ratings`. -/
def requiredMetrics (r : RuleDef) : List String :=
  r.metric ::
    (if r.compare then
      (match r.threshold with
       | .metric m => [m]
       | _ => [])
     else [])

/-- `df[required_metrics].isnull().any(axis=1)` for one row. -/
def anyRequiredMissing (row : String → FVal) (r : RuleDef) : Bool :=
  (requiredMetrics r).any (fun m => isnull (row m))

/-- The threshold comparison of `calculate_risk_ratings` for one row:
the branch on `compare` and on the operator, using elementwise pandas
comparisons (NaN compares false). -/
def ruleTriggered (row : String → FVal) (r : RuleDef) : Bool :=
  if r.compare then
    match r.op, r.threshold with
    | .lt, .metric m => flt (row r.metric) (row m)
    | .gt, .metric m => fgt (row r.metric) (row m)
    | _, _ => false
  else
    match r.op, r.threshold with
    | .lt, .const t => flt (row r.metric) (.num t)
    | .gt, .const t => fgt (row r.metric) (.num t)
    | .between, .range lo hi => fge (row r.metric) (.num lo) && flt (row r.metric) (.num hi)
    | _, _ => false

/-- The per-(rule, row) flag of `calculate_risk_ratings`: the column starts
at 0; rows with missing required metrics are set to -1; then rows that are
valid (not missing) and satisfy the comparison are set to 1. -/
def evalRule (row : String → FVal) (r : RuleDef) : Int :=
  let afterMissing : Int := if anyRequiredMissing row r then -1 else 0
  if (!anyRequiredMissing row r) && ruleTriggered row r then 1 else afterMissing

/-- The `RISK_FLAG_DEFINITIONS` registry. -/
def RISK_FLAG_DEFINITIONS : List (String × RuleDef) :=
  [("negative_operating_income_ttm_flag",
      ⟨"ttm_operating_income", .const 0, .lt, 1, false⟩),
   ("negative_retained_earnings_flag",
      ⟨"period_value_cumulative_retained_earnings", .const 0, .lt, 1, false⟩),
   ("modified_quick_ratio_less_one_flag",
      ⟨"modified_quick_ratio", .const 1, .lt, 1, false⟩),
   ("yoy_revenue_decline_flag",
      ⟨"yoy_revenue_change", .const 0, .lt, 1, false⟩),
   ("ab_debt_exceeds_contributed_capital_flag",
      ⟨"period_value_ab_loan_balance", .metric "period_value_contributed_capital", .gt, 1, true⟩),
   ("inventory_turnover_below_2_flag",
      ⟨"inventory_turns_ttm", .const 2, .lt, 1, false⟩),
   ("ab_loc_25_percent_of_revenue_flag",
      ⟨"ab_line_of_credit_as_percent_of_ttm_revenue", .const (1/4), .gt, 1, false⟩),
   ("revenue_below_10_million_flag",
      ⟨"ttm_revenue", .const 10000, .lt, 1, false⟩),
   ("less_than_1_year_of_runway_flag",
      ⟨"years_of_runway", .range 0 1, .between, 1, false⟩)]

/-! ## Pre-flight validation (`confirm_availability_of_metrics_used_for_risk_ratings`) -/

/-- The undefined-reference descriptions accumulated by
`confirm_availability_of_metrics_used_for_risk_ratings`, in scan order:
for every rule, the primary metric if absent, then the threshold (when it
is a metric-name string) if absent. -/
def undefinedRuleRefs (rules : List (String × RuleDef)) (cols : List String) : List String :=
  match rules with
  | [] => []
  | (flagName, r) :: rest =>
    (if r.metric ∈ cols then []
     else ["\x27" ++ r.metric ++ "\x27 referenced in \x27" ++ flagName ++ "\x27"]) ++
    (match r.threshold with
     | .metric m =>
       if m ∈ cols then []
       else ["\x27" ++ m ++ "\x27 referenced in \x27" ++ flagName ++ "\x27"]
     | _ => []) ++
    undefinedRuleRefs rest cols

/-- `', '.join(...)`. -/
def joinComma : List String → String
  | [] => ""
  | [s] => s
  | s :: rest => s ++ ", " ++ joinComma rest

/-- `confirm_availability_of_metrics_used_for_risk_ratings`: collects every
undefined reference and raises a single `ValueError` listing all of them;
succeeds otherwise. -/
def confirmAvailability (rules : List (String × RuleDef)) (cols : List String) :
    Except String Unit :=
  if undefinedRuleRefs rules cols = [] then .ok ()
  else
    .error ("RISK_FLAG_DEFINITIONS references undefined metrics: " ++
      joinComma (undefinedRuleRefs rules cols))

/-- The comparison-target reference carried by a threshold: the metric name
when the threshold is a metric-name string, nothing otherwise. -/
def thresholdRefs : Threshold → List String
  | .metric m => [m]
  | _ => []

/-- Every metric name referenced by the rule registry: for each rule its
primary metric and, when present, its comparison-target metric. -/
def ruleRefs (rules : List (String × RuleDef)) : List String :=
  rules.flatMap (fun p => p.2.metric :: thresholdRefs p.2.threshold)

/-! ## Aggregate rating (`calculate_risk_ratings`, lines 500-505) -/

/-- Python `round` to the nearest integer, ties to even (banker's
rounding), on an exact rational. -/
def pyRoundHalfEven (q : ℚ) : ℤ :=
  if q - ⌊q⌋ < 1/2 then ⌊q⌋
  else if 1/2 < q - ⌊q⌋ then ⌊q⌋ + 1
  else if Even ⌊q⌋ then ⌊q⌋ else ⌊q⌋ + 1

/-- Python `round(x, 1)`. -/
def pyRound1 (q : ℚ) : ℚ := (pyRoundHalfEven (q * 10) : ℚ) / 10

/-- `round(row[row != -1].mean() * 10, 1) if any(row != -1) else -1`
over the list of per-rule flags of one row. -/
def riskRating (flags : List ℤ) : ℚ :=
  if flags.any (fun f => f != -1) then
    pyRound1 (((flags.filter (fun f => f != -1)).sum : ℚ) /
      ((flags.filter (fun f => f != -1)).length : ℚ) * 10)
  else -1

/-- `sum(val == -1 for val in row)`: the
`num_flags_with_missing_underlying_data` column. -/
def numFlagsMissing (flags : List ℤ) : ℕ := flags.countP (fun f => f == -1)

/-! ## Current-Snapshot Builder (`write_current_risk_ratings`) -/

/-- One scored row as seen by the snapshot builder: entity, period
(timestamps are totally ordered; an integer stands for the instant), and
the rating payload. -/
structure SRow where
  company : String
  period : ℤ
  rating : ℚ
deriving DecidableEq

/-- `row.time_period == row's group max`: the row survives the
`transform('max')` filter exactly when no row of the same company has a
larger period. -/
def isLatest (rows : List SRow) (r : SRow) : Bool :=
  rows.all (fun s => !(s.company == r.company) || decide (s.period ≤ r.period))

/-- The most-recent-period filter of `write_current_risk_ratings`:
`current_df[current_df['time_period'] == latest_periods]`. -/
def currentSnapshot (rows : List SRow) : List SRow :=
  rows.filter (isLatest rows)

/-- `col.replace('_flag', '')` over characters: removes every occurrence of
`_flag`, scanning left to right, driven by a fuel argument (the list length
suffices). -/
def removeFlagAux : ℕ → List Char → List Char
  | 0, _ => []
  | _, [] => []
  | fuel + 1, c :: cs =>
    if (c :: cs).take 5 = '_' :: 'f' :: 'l' :: 'a' :: 'g' :: [] then
      removeFlagAux fuel ((c :: cs).drop 5)
    else c :: removeFlagAux fuel cs

/-- `col.replace('_flag', '')`. -/
def stripFlag (s : String) : String := ⟨removeFlagAux s.data.length s.data⟩

/-- The `aggregate_flags(row, value)` helper of `write_current_risk_ratings`:
the names (suffix-stripped, wrapped in single quotes) of the flag columns
holding `value`, joined with `', '`; a fixed sentinel when none do. -/
def aggregateFlags (flags : List (String × ℤ)) (value : ℤ) : String :=
  if ((flags.filter (fun p => p.2 == value)).map
      (fun p => "\x27" ++ stripFlag p.1 ++ "\x27")).isEmpty then
    (if value = 1 then "no flags" else "no missing data")
  else
    joinComma ((flags.filter (fun p => p.2 == value)).map
      (fun p => "\x27" ++ stripFlag p.1 ++ "\x27"))

/-! ## Lemmas -/

/-- Every per-(rule, row) flag the scorer produces lies in {-1, 0, 1}: the
hypothesis under which the aggregate-rating facts below are stated. -/
lemma evalRule_mem_flags (row : String → FVal) (r : RuleDef) :
    evalRule row r = -1 ∨ evalRule row r = 0 ∨ evalRule row r = 1 := by
  rw [evalRule]
  split_ifs <;> simp

lemma pyRoundHalfEven_nonneg (q : ℚ) (hq : 0 ≤ q) : 0 ≤ pyRoundHalfEven q := by
  have h0 : (0 : ℤ) ≤ ⌊q⌋ := Int.floor_nonneg.mpr hq
  unfold pyRoundHalfEven
  split_ifs <;> omega

lemma pyRoundHalfEven_le_hundred (q : ℚ) (hq : q ≤ 100) : pyRoundHalfEven q ≤ 100 := by
  have hfl : ⌊q⌋ ≤ 100 := by
    have := Int.floor_le_floor (α := ℚ) hq
    simpa using this
  have hflq : (⌊q⌋ : ℚ) ≤ q := Int.floor_le q
  unfold pyRoundHalfEven
  split_ifs with h1 h2 h3
  · exact hfl
  · have : (⌊q⌋ : ℚ) < 100 := by linarith
    have : ⌊q⌋ < 100 := by exact_mod_cast this
    omega
  · exact hfl
  · have hhalf : q - ⌊q⌋ = 1/2 := le_antisymm (not_lt.mp h2) (not_lt.mp h1)
    have : (⌊q⌋ : ℚ) < 100 := by linarith
    have : ⌊q⌋ < 100 := by exact_mod_cast this
    omega

lemma pyRound1_nonneg (x : ℚ) (h0 : 0 ≤ x) : 0 ≤ pyRound1 x := by
  have := pyRoundHalfEven_nonneg (x * 10) (by linarith)
  unfold pyRound1
  positivity

lemma pyRound1_le_ten (x : ℚ) (h10 : x ≤ 10) : pyRound1 x ≤ 10 := by
  have h := pyRoundHalfEven_le_hundred (x * 10) (by linarith)
  have h' : (pyRoundHalfEven (x * 10) : ℚ) ≤ 100 := by exact_mod_cast h
  unfold pyRound1
  linarith

lemma sum_filter_ne_neg_one (flags : List ℤ)
    (h : ∀ f ∈ flags, f = -1 ∨ f = 0 ∨ f = 1) :
    (flags.filter (fun f => f != -1)).sum = (flags.count 1 : ℤ) := by
  induction flags with
  | nil => simp
  | cons a t ih =>
    have ha := h a (List.mem_cons_self a t)
    have ht := ih (fun f hf => h f (List.mem_cons_of_mem a hf))
    rcases ha with rfl | rfl | rfl <;>
      (simp [List.filter_cons, List.count_cons, ht]; try omega)

lemma filter_mem_zero_one (flags : List ℤ)
    (h : ∀ f ∈ flags, f = -1 ∨ f = 0 ∨ f = 1) :
    ∀ x ∈ flags.filter (fun f => f != -1), x = 0 ∨ x = 1 := by
  intro x hx
  rw [List.mem_filter] at hx
  rcases h x hx.1 with rfl | rfl | rfl
  · simpa using hx.2
  · exact Or.inl rfl
  · exact Or.inr rfl

lemma sum_zero_one_bounds (l : List ℤ) (h : ∀ x ∈ l, x = 0 ∨ x = 1) :
    0 ≤ l.sum ∧ l.sum ≤ (l.length : ℤ) := by
  induction l with
  | nil => simp
  | cons a t ih =>
    have ha := h a (List.mem_cons_self a t)
    obtain ⟨h1, h2⟩ := ih (fun x hx => h x (List.mem_cons_of_mem a hx))
    rcases ha with rfl | rfl <;>
      (simp [List.sum_cons]; constructor <;> omega)

/-- C1: for every scored row whose per-rule flags all come from
{-1, 0, 1}: if every flag equals -1 the aggregate rating is exactly -1;
otherwise the rating equals round(10 x (count of flags equal to 1) /
(count of flags not equal to -1), 1). -/
theorem c1_rating_formula (flags : List ℤ)
    (h : ∀ f ∈ flags, f = -1 ∨ f = 0 ∨ f = 1) :
    ((∀ f ∈ flags, f = -1) → riskRating flags = -1) ∧
    ((∃ f ∈ flags, f ≠ -1) →
      riskRating flags =
        pyRound1 (10 * (flags.count 1 : ℚ) /
          ((flags.countP (fun f => f != -1) : ℕ) : ℚ))) := by
  constructor
  · intro hall
    have hany : flags.any (fun f => f != -1) = false := by
      rw [List.any_eq_false]
      intro f hf
      simpa using hall f hf
    simp [riskRating, hany]
  · rintro ⟨f, hf, hfne⟩
    have hany : flags.any (fun f => f != -1) = true :=
      List.any_eq_true.mpr ⟨f, hf, by simpa using hfne⟩
    have hsum := sum_filter_ne_neg_one flags h
    have hlen : (flags.filter (fun f => f != -1)).length =
        flags.countP (fun f => f != -1) :=
      (List.countP_eq_length_filter _ _).symm
    rw [riskRating, if_pos hany, hsum, hlen]
    congr 1
    push_cast
    ring

/-- C10: over flags from {-1, 0, 1}: the rating is -1 only when every flag
is -1; when some flag is not -1 the rating lies in [0, 10]; and the
missing-data count column equals the number of flags equal to -1. -/
theorem c10_rating_invariants (flags : List ℤ)
    (h : ∀ f ∈ flags, f = -1 ∨ f = 0 ∨ f = 1) :
    (riskRating flags = -1 → ∀ f ∈ flags, f = -1) ∧
    ((∃ f ∈ flags, f ≠ -1) → 0 ≤ riskRating flags ∧ riskRating flags ≤ 10) ∧
    numFlagsMissing flags = flags.count (-1) := by
  have hbounds : (∃ f ∈ flags, f ≠ -1) →
      0 ≤ riskRating flags ∧ riskRating flags ≤ 10 := by
    rintro ⟨f, hf, hfne⟩
    have hany : flags.any (fun f => f != -1) = true :=
      List.any_eq_true.mpr ⟨f, hf, by simpa using hfne⟩
    have hmem : f ∈ flags.filter (fun f => f != -1) :=
      List.mem_filter.mpr ⟨hf, by simpa using hfne⟩
    have hne : flags.filter (fun f => f != -1) ≠ [] := List.ne_nil_of_mem hmem
    set nm := flags.filter (fun f => f != -1) with hnm
    have hlpos : 0 < (nm.length : ℚ) := by
      have : 0 < nm.length := List.length_pos.mpr hne
      exact_mod_cast this
    obtain ⟨hs0, hs1⟩ := sum_zero_one_bounds nm (filter_mem_zero_one flags h)
    have hx0 : 0 ≤ (nm.sum : ℚ) / (nm.length : ℚ) * 10 := by
      have h0 : (0 : ℚ) ≤ (nm.sum : ℚ) := by exact_mod_cast hs0
      positivity
    have hx10 : (nm.sum : ℚ) / (nm.length : ℚ) * 10 ≤ 10 := by
      have hle : (nm.sum : ℚ) ≤ (nm.length : ℚ) := by exact_mod_cast hs1
      have : (nm.sum : ℚ) / (nm.length : ℚ) ≤ 1 := by
        rw [div_le_one hlpos]
        exact hle
      linarith
    rw [riskRating, if_pos hany]
    exact ⟨pyRound1_nonneg _ hx0, pyRound1_le_ten _ hx10⟩
  refine ⟨?_, hbounds, ?_⟩
  · intro hrat
    by_contra hnot
    push_neg at hnot
    obtain ⟨f, hf, hfne⟩ := hnot
    obtain ⟨h0, _⟩ := hbounds ⟨f, hf, hfne⟩
    rw [hrat] at h0
    norm_num at h0
  · rfl

/-- Witness for C1 at the flag row [1, 0, -1]: one triggered rule, one
clean rule, one missing rule give rating round(10 * 1/2, 1) = 5. -/
theorem c1_rating_formula_witness :
    riskRating [1, 0, -1] =
      pyRound1 (10 * (([1, 0, -1] : List ℤ).count 1 : ℚ) /
        ((([1, 0, -1] : List ℤ).countP (fun f => f != -1) : ℕ) : ℚ)) ∧
    riskRating [1, 0, -1] = 5 :=
  ⟨(c1_rating_formula [1, 0, -1] (by decide)).2 ⟨1, by decide, by decide⟩,
   by
    simp +decide only [riskRating, List.filter_cons, List.filter_nil,
      List.any_cons, List.any_nil]
    norm_num [pyRound1, pyRoundHalfEven, Int.even_iff]⟩

/-- Witness for C10 at the flag row [1, 1, 0, -1]: the rating 6.7 lies in
[0, 10] and the missing count is 1. -/
theorem c10_rating_invariants_witness :
    ((riskRating [1, 1, 0, -1] = -1 → ∀ f ∈ ([1, 1, 0, -1] : List ℤ), f = -1) ∧
     ((∃ f ∈ ([1, 1, 0, -1] : List ℤ), f ≠ -1) →
       0 ≤ riskRating [1, 1, 0, -1] ∧ riskRating [1, 1, 0, -1] ≤ 10) ∧
     numFlagsMissing [1, 1, 0, -1] = ([1, 1, 0, -1] : List ℤ).count (-1)) ∧
    riskRating [1, 1, 0, -1] = 67/10 ∧ numFlagsMissing [1, 1, 0, -1] = 1 :=
  ⟨c10_rating_invariants [1, 1, 0, -1] (by decide),
   by
    simp +decide only [riskRating, List.filter_cons, List.filter_nil,
      List.any_cons, List.any_nil]
    norm_num [pyRound1, pyRoundHalfEven, Int.even_iff],
   by decide⟩

/-- C2: for every row and every risk rule, if any metric the rule requires
(the primary metric, plus the comparison-target metric when the rule
compares two metrics) is null in that row, the rule's flag is exactly -1,
regardless of comparison operator or threshold: the missing-data marking
precedes the threshold evaluation and the threshold branch only touches
valid (non-missing) rows. -/
theorem c2_missing_data_flag (row : String → FVal) (r : RuleDef)
    (h : ∃ m ∈ requiredMetrics r, isnull (row m) = true) :
    evalRule row r = -1 := by
  obtain ⟨m, hm, hnull⟩ := h
  have hmiss : anyRequiredMissing row r = true :=
    List.any_eq_true.mpr ⟨m, hm, hnull⟩
  simp [evalRule, hmiss]

/-- Witness for C2: a row in which every metric is null gets flag -1 on the
runway between-rule. -/
theorem c2_missing_data_flag_witness :
    (∃ m ∈ requiredMetrics ⟨"years_of_runway", .range 0 1, .between, 1, false⟩,
        isnull ((fun _ => FVal.nan) m) = true) ∧
    evalRule (fun _ => FVal.nan)
      ⟨"years_of_runway", .range 0 1, .between, 1, false⟩ = -1 :=
  ⟨⟨"years_of_runway", List.mem_cons_self _ _, rfl⟩,
   c2_missing_data_flag _ _ ⟨"years_of_runway", List.mem_cons_self _ _, rfl⟩⟩

/-- C8: for every rule using the between operator (with a constant
(lower, upper) pair) and every row whose metric value is non-null, the rule
triggers exactly when lower ≤ value < upper — the lower bound is inclusive
and the upper bound exclusive. -/
theorem c8_between_boundaries (row : String → FVal) (m : String)
    (lo hi p q : ℚ) (hv : row m = .num q) :
    evalRule row ⟨m, .range lo hi, .between, p, false⟩ =
      if lo ≤ q ∧ q < hi then 1 else 0 := by
  have hmiss : anyRequiredMissing row ⟨m, .range lo hi, .between, p, false⟩ = false := by
    simp [anyRequiredMissing, requiredMetrics, hv, isnull]
  have htrig : ruleTriggered row ⟨m, .range lo hi, .between, p, false⟩ =
      (decide (lo ≤ q) && decide (q < hi)) := by
    simp [ruleTriggered, hv, fge, flt]
  simp only [evalRule, hmiss, htrig, Bool.not_false, Bool.true_and]
  by_cases hlo : lo ≤ q <;> by_cases hhi : q < hi <;> simp [hlo, hhi]

/-- Witness for C8 on the runway rule (between 0 and 1): a value exactly at
the lower bound 0 triggers, a value exactly at the upper bound 1 does not. -/
theorem c8_between_boundaries_witness :
    evalRule (fun s => if s == "years_of_runway" then FVal.num 0 else FVal.nan)
      ⟨"years_of_runway", .range 0 1, .between, 1, false⟩ = 1 ∧
    evalRule (fun s => if s == "years_of_runway" then FVal.num 1 else FVal.nan)
      ⟨"years_of_runway", .range 0 1, .between, 1, false⟩ = 0 := by
  constructor
  · rw [c8_between_boundaries
      (fun s => if s == "years_of_runway" then FVal.num 0 else FVal.nan)
      "years_of_runway" 0 1 1 0 (by simp)]
    norm_num
  · rw [c8_between_boundaries
      (fun s => if s == "years_of_runway" then FVal.num 1 else FVal.nan)
      "years_of_runway" 0 1 1 1 (by simp)]
    norm_num

/-- C5: after the pivot stage, every column whose name begins with one of
the value-kind prefixes `period_value_`, `ttm_avg_`, `pttm_avg_` is the
zero-to-null rewrite of a column of the pivoted table, and therefore never
contains the value zero. -/
theorem c5_no_zero_after_nullify (t : List (String × List FVal))
    (name : String) (col : List FVal)
    (hmem : (name, col) ∈ nullifyValueColumns t)
    (hpre : isValueKindCol name = true) :
    (∀ v ∈ col, v ≠ .num 0) ∧
    ∃ col0, (name, col0) ∈ t ∧ col = replaceZeroNan col0 := by
  rw [nullifyValueColumns, List.mem_map] at hmem
  obtain ⟨⟨n0, c0⟩, hmem0, heq⟩ := hmem
  by_cases hk : isValueKindCol n0
  · simp only [hk, if_true] at heq
    rw [Prod.mk.injEq] at heq
    obtain ⟨hn, hc⟩ := heq
    subst hn
    subst hc
    refine ⟨?_, c0, hmem0, rfl⟩
    intro v hv
    rw [replaceZeroNan, List.mem_map] at hv
    obtain ⟨w, _, hw⟩ := hv
    by_cases hw0 : w = FVal.num 0
    · rw [if_pos hw0] at hw
      rw [← hw]
      simp
    · rw [if_neg hw0] at hw
      rw [← hw]
      exact hw0
  · simp only [hk, if_false] at heq
    rw [Prod.mk.injEq] at heq
    obtain ⟨hn, _⟩ := heq
    subst hn
    exact absurd hpre (by simpa using hk)

/-- Witness for C5: a pivoted table with a zero in `period_value_cash`; the
nullified table holds NaN there, and the column contains no zero. -/
theorem c5_no_zero_after_nullify_witness :
    (∀ v ∈ [FVal.nan, FVal.num 5], v ≠ FVal.num 0) ∧
    ∃ col0, ("period_value_cash", col0) ∈
        [("period_value_cash", [FVal.num 0, FVal.num 5]),
         ("company_name", [FVal.num 0])] ∧
      [FVal.nan, FVal.num 5] = replaceZeroNan col0 :=
  c5_no_zero_after_nullify
    [("period_value_cash", [FVal.num 0, FVal.num 5]),
     ("company_name", [FVal.num 0])]
    "period_value_cash" [FVal.nan, FVal.num 5] (by decide) (by decide)

/-- C6: for every row with non-null cash and non-null (hence, post-pivot,
nonzero) trailing-average operating income, the runway metric is -1 exactly
when the cash-to-burn ratio cash / (12 * operating income) is positive, and
otherwise equals the negation of that ratio; moreover, when cash is
positive, the ratio being positive is equivalent to the operating income
being non-negative. -/
theorem c6_years_of_runway (r : PRow) (c w : ℚ)
    (hc : r.period_value_cash = .num c)
    (hw : r.ttm_avg_operating_income = .num w) (hw0 : w ≠ 0) :
    years_of_runway r =
      (if 0 < c / (12 * w) then FVal.num (-1) else FVal.num (-(c / (12 * w)))) ∧
    (0 < c → (0 < c / (12 * w) ↔ 0 ≤ w)) := by
  have h12 : w * 12 ≠ 0 := mul_ne_zero hw0 (by norm_num)
  have hr : cash_to_burn r = .num (c / (12 * w)) := by
    rw [cash_to_burn, hc, hw]
    simp only [fmul, fdiv, if_neg h12]
    rw [mul_comm w 12]
  constructor
  · rw [years_of_runway, hr]
    by_cases hpos : 0 < c / (12 * w) <;>
      simp [fgt, flt, fneg, hpos]
  · intro hcpos
    rw [div_pos_iff]
    constructor
    · rintro (⟨_, h12w⟩ | ⟨hcneg, _⟩)
      · linarith
      · linarith
    · intro hwnn
      have hwpos : 0 < w := lt_of_le_of_ne hwnn (Ne.symm hw0)
      exact Or.inl ⟨hcpos, by linarith⟩

/-- Witness for C6 at cash = 100, ttm-average operating income = -5 (the
spec's burning-cash scenario): the ratio is negative, so runway is
-(100 / -60) = 5/3 years. -/
theorem c6_years_of_runway_witness :
    (years_of_runway
        ⟨FVal.nan, FVal.num (-5), FVal.nan, FVal.nan, FVal.nan, FVal.num 100,
         FVal.nan, FVal.nan, FVal.nan, FVal.nan⟩ =
      (if 0 < (100 : ℚ) / (12 * (-5)) then FVal.num (-1)
       else FVal.num (-((100 : ℚ) / (12 * (-5)))))) ∧
    years_of_runway
        ⟨FVal.nan, FVal.num (-5), FVal.nan, FVal.nan, FVal.nan, FVal.num 100,
         FVal.nan, FVal.nan, FVal.nan, FVal.nan⟩ = FVal.num (5/3) :=
  ⟨(c6_years_of_runway _ 100 (-5) rfl rfl (by norm_num)).1,
   by
    rw [(c6_years_of_runway _ 100 (-5) rfl rfl (by norm_num)).1]
    norm_num⟩

lemma yoy_guard (r : PRow) (h1 : pivotedVal r.ttm_avg_revenue)
    (h2 : pivotedVal r.pttm_avg_revenue) :
    ((r.pttm_avg_revenue = .nan ∨ r.pttm_avg_revenue = .num 0) →
      yoy_revenue_change r = .nan) ∧
    yoy_revenue_change r ≠ .inf ∧ yoy_revenue_change r ≠ .ninf := by
  rcases h1 with h1 | ⟨a, ha, ha0⟩ <;> rcases h2 with h2 | ⟨b, hb, hb0⟩ <;>
    simp [yoy_revenue_change, fsub, fadd, fneg, fdiv, *]

lemma runway_guard (r : PRow) (h1 : pivotedVal r.period_value_cash)
    (h2 : pivotedVal r.ttm_avg_operating_income) :
    ((fmul r.ttm_avg_operating_income (.num 12) = .nan ∨
      fmul r.ttm_avg_operating_income (.num 12) = .num 0) →
      years_of_runway r = .nan) ∧
    years_of_runway r ≠ .inf ∧ years_of_runway r ≠ .ninf := by
  rcases h2 with h2 | ⟨w, hw, hw0⟩
  · rcases h1 with h1 | ⟨c, hc, _⟩ <;>
      simp [years_of_runway, cash_to_burn, fmul, fdiv, fgt, flt, fneg, *]
  · have hw12 : w * 12 ≠ 0 := mul_ne_zero hw0 (by norm_num)
    rcases h1 with h1 | ⟨c, hc, _⟩
    · simp [years_of_runway, cash_to_burn, fmul, fdiv, fgt, flt, fneg, h1, hw, hw12]
    · have hr : cash_to_burn r = .num (c / (w * 12)) := by
        rw [cash_to_burn, hc, hw]
        simp [fmul, fdiv, hw12]
      constructor
      · intro hden
        rw [hw] at hden
        simp [fmul, hw12] at hden
      · rw [years_of_runway, hr]
        by_cases hpos : 0 < c / (w * 12) <;> simp [fgt, flt, fneg, hpos]

lemma abloc_guard (r : PRow) (h1 : pivotedVal r.period_value_ab_loan_balance)
    (h2 : pivotedVal r.ttm_avg_revenue) :
    ((fmul r.ttm_avg_revenue (.num 12) = .nan ∨
      fmul r.ttm_avg_revenue (.num 12) = .num 0) →
      ab_line_of_credit_as_percent_of_ttm_revenue r = .nan) ∧
    ab_line_of_credit_as_percent_of_ttm_revenue r ≠ .inf ∧
    ab_line_of_credit_as_percent_of_ttm_revenue r ≠ .ninf := by
  rcases h2 with h2 | ⟨b, hb, hb0⟩
  · rcases h1 with h1 | ⟨a, ha, _⟩ <;>
      simp [ab_line_of_credit_as_percent_of_ttm_revenue, fmul, fdiv, *]
  · have hb12 : b * 12 ≠ 0 := mul_ne_zero hb0 (by norm_num)
    rcases h1 with h1 | ⟨a, ha, _⟩ <;>
      simp [ab_line_of_credit_as_percent_of_ttm_revenue, fmul, fdiv, hb12, *]

lemma invturns_guard (r : PRow) (h1 : pivotedVal r.ttm_avg_costs_of_goods_sold)
    (h2 : pivotedVal r.ttm_avg_inventory) :
    ((r.ttm_avg_inventory = .nan ∨ r.ttm_avg_inventory = .num 0) →
      inventory_turns_ttm r = .nan) ∧
    inventory_turns_ttm r ≠ .inf ∧ inventory_turns_ttm r ≠ .ninf := by
  rcases h1 with h1 | ⟨a, ha, _⟩ <;> rcases h2 with h2 | ⟨b, hb, hb0⟩ <;>
    simp [inventory_turns_ttm, fmul, fdiv, *]

lemma mqr_guard (r : PRow) (h1 : pivotedVal r.period_value_cash)
    (h2 : pivotedVal r.period_value_accounts_receivable)
    (h3 : pivotedVal r.period_value_accounts_payable)
    (h4 : pivotedVal r.period_value_credit_cards) :
    ((fadd r.period_value_accounts_payable r.period_value_credit_cards = .nan ∨
      fadd r.period_value_accounts_payable r.period_value_credit_cards = .num 0) →
      modified_quick_ratio r = .nan) ∧
    modified_quick_ratio r ≠ .inf ∧ modified_quick_ratio r ≠ .ninf := by
  rcases h1 with h1 | ⟨a, ha, _⟩ <;> rcases h2 with h2 | ⟨b, hb, _⟩ <;>
    rcases h3 with h3 | ⟨x, hx, _⟩ <;> rcases h4 with h4 | ⟨y, hy, _⟩ <;>
    first
      | (simp [modified_quick_ratio, mqr_denominator, fadd, fne, feq, fdiv, *]
         done)
      | (by_cases hs : x + y = 0 <;>
          simp [modified_quick_ratio, mqr_denominator, fadd, fne, feq, fdiv, hs, *])

/-- C7: for every ratio formula of the derived-metric registry and every
row as produced by the pivot stage (each base cell is null or a finite
nonzero value), a null or zero denominator yields a null result, and the
formula never produces a positive or negative infinity.  As total Lean
functions the formulas also never raise. -/
theorem c7_division_guards (r : PRow)
    (h1 : pivotedVal r.ttm_avg_revenue)
    (h2 : pivotedVal r.ttm_avg_operating_income)
    (h3 : pivotedVal r.ttm_avg_costs_of_goods_sold)
    (h4 : pivotedVal r.ttm_avg_inventory)
    (h5 : pivotedVal r.pttm_avg_revenue)
    (h6 : pivotedVal r.period_value_cash)
    (h7 : pivotedVal r.period_value_accounts_receivable)
    (h8 : pivotedVal r.period_value_accounts_payable)
    (h9 : pivotedVal r.period_value_credit_cards)
    (h10 : pivotedVal r.period_value_ab_loan_balance) :
    (((r.pttm_avg_revenue = .nan ∨ r.pttm_avg_revenue = .num 0) →
        yoy_revenue_change r = .nan) ∧
      yoy_revenue_change r ≠ .inf ∧ yoy_revenue_change r ≠ .ninf) ∧
    (((fmul r.ttm_avg_operating_income (.num 12) = .nan ∨
        fmul r.ttm_avg_operating_income (.num 12) = .num 0) →
        years_of_runway r = .nan) ∧
      years_of_runway r ≠ .inf ∧ years_of_runway r ≠ .ninf) ∧
    (((fmul r.ttm_avg_revenue (.num 12) = .nan ∨
        fmul r.ttm_avg_revenue (.num 12) = .num 0) →
        ab_line_of_credit_as_percent_of_ttm_revenue r = .nan) ∧
      ab_line_of_credit_as_percent_of_ttm_revenue r ≠ .inf ∧
      ab_line_of_credit_as_percent_of_ttm_revenue r ≠ .ninf) ∧
    (((r.ttm_avg_inventory = .nan ∨ r.ttm_avg_inventory = .num 0) →
        inventory_turns_ttm r = .nan) ∧
      inventory_turns_ttm r ≠ .inf ∧ inventory_turns_ttm r ≠ .ninf) ∧
    (((fadd r.period_value_accounts_payable r.period_value_credit_cards = .nan ∨
        fadd r.period_value_accounts_payable r.period_value_credit_cards = .num 0) →
        modified_quick_ratio r = .nan) ∧
      modified_quick_ratio r ≠ .inf ∧ modified_quick_ratio r ≠ .ninf) :=
  ⟨yoy_guard r h1 h5, runway_guard r h6 h2, abloc_guard r h10 h1,
   invturns_guard r h3 h4, mqr_guard r h6 h7 h8 h9⟩

/-- Witness for C7 at the spec's scenario-B-style row: AP = 2 and CC = -2
give a zero quick-ratio denominator, so the metric is null; a null
pttm-average revenue makes the year-over-year change null. -/
theorem c7_division_guards_witness :
    modified_quick_ratio
      ⟨FVal.nan, FVal.nan, FVal.nan, FVal.nan, FVal.nan, FVal.num 5,
       FVal.num 3, FVal.num 2, FVal.num (-2), FVal.nan⟩ = FVal.nan ∧
    yoy_revenue_change
      ⟨FVal.nan, FVal.nan, FVal.nan, FVal.nan, FVal.nan, FVal.num 5,
       FVal.num 3, FVal.num 2, FVal.num (-2), FVal.nan⟩ = FVal.nan :=
  have h := c7_division_guards
    ⟨FVal.nan, FVal.nan, FVal.nan, FVal.nan, FVal.nan, FVal.num 5,
     FVal.num 3, FVal.num 2, FVal.num (-2), FVal.nan⟩
    (Or.inl rfl) (Or.inl rfl) (Or.inl rfl) (Or.inl rfl) (Or.inl rfl)
    (Or.inr ⟨5, rfl, by norm_num⟩) (Or.inr ⟨3, rfl, by norm_num⟩)
    (Or.inr ⟨2, rfl, by norm_num⟩) (Or.inr ⟨-2, rfl, by norm_num⟩)
    (Or.inl rfl)
  ⟨h.2.2.2.2.1 (Or.inr (by norm_num [fadd])), h.1.1 (Or.inl rfl)⟩

lemma exists_max_period (l : List SRow) (hne : l ≠ []) :
    ∃ r ∈ l, ∀ s ∈ l, s.period ≤ r.period := by
  induction l with
  | nil => exact absurd rfl hne
  | cons a t ih =>
    rcases eq_or_ne t [] with rfl | htne
    · refine ⟨a, List.mem_cons_self a [], ?_⟩
      intro s hs
      rcases List.mem_cons.mp hs with rfl | hs'
      · exact le_refl _
      · simp at hs'
    · obtain ⟨r, hr, hmax⟩ := ih htne
      by_cases hc : r.period ≤ a.period
      · refine ⟨a, List.mem_cons_self a t, ?_⟩
        intro s hs
        rcases List.mem_cons.mp hs with rfl | hs'
        · exact le_refl _
        · exact le_trans (hmax s hs') hc
      · refine ⟨r, List.mem_cons_of_mem a hr, ?_⟩
        intro s hs
        rcases List.mem_cons.mp hs with rfl | hs'
        · exact le_of_not_le hc
        · exact hmax s hs'

lemma count_le_one_of_pairwise (rows : List SRow)
    (hpw : rows.Pairwise (fun a b => a.company = b.company → a.period ≠ b.period))
    (r : SRow) : rows.count r ≤ 1 := by
  by_contra hgt
  push_neg at hgt
  have hdup : List.Duplicate r rows := List.duplicate_iff_two_le_count.mpr (by omega)
  have hsub : List.Sublist [r, r] rows := List.duplicate_iff_sublist.mp hdup
  have hpair := hpw.sublist hsub
  rw [List.pairwise_cons] at hpair
  exact (hpair.1 r (by simp) rfl) rfl

lemma filter_eq_singleton_of_unique (l : List SRow) (p : SRow → Bool) (r : SRow)
    (hmem : r ∈ l) (hpr : p r = true) (huniq : ∀ x ∈ l, p x = true → x = r)
    (hcount : l.count r ≤ 1) :
    l.filter p = [r] := by
  induction l with
  | nil => simp at hmem
  | cons a t ih =>
    by_cases hpa : p a = true
    · have ha : a = r := huniq a (List.mem_cons_self a t) hpa
      subst ha
      rw [List.filter_cons_of_pos hpa]
      have ht0 : t.count a = 0 := by
        rw [List.count_cons_self] at hcount
        omega
      have hnone : ∀ x ∈ t, ¬ p x = true := by
        intro x hx hpx
        have hxa : x = a := huniq x (List.mem_cons_of_mem a hx) hpx
        subst hxa
        have hpos : 0 < t.count x := List.count_pos_iff.mpr hx
        omega
      rw [List.filter_eq_nil_iff.mpr hnone]
    · have har : a ≠ r := fun h => hpa (h ▸ hpr)
      have hmem' : r ∈ t := by
        rcases List.mem_cons.mp hmem with h | h
        · exact absurd h.symm har
        · exact h
      have hcount' : t.count r ≤ 1 := by
        rw [List.count_cons_of_ne (Ne.symm har)] at hcount
        exact hcount
      rw [List.filter_cons_of_neg hpa]
      exact ih hmem' (fun x hx hpx => huniq x (List.mem_cons_of_mem a hx) hpx) hcount'

/-- C4: on a scored table where no entity has two rows with the same
period (the pivot stage keys rows by (entity, period)), the snapshot
filter keeps, for each entity present, exactly one row: the one with that
entity's maximum period. -/
theorem c4_current_snapshot (rows : List SRow)
    (hpw : rows.Pairwise (fun a b => a.company = b.company → a.period ≠ b.period))
    (c : String) (hc : ∃ r ∈ rows, r.company = c) :
    ∃ r ∈ rows, r.company = c ∧
      (∀ s ∈ rows, s.company = c → s.period ≤ r.period) ∧
      (currentSnapshot rows).filter (fun s => s.company == c) = [r] := by
  obtain ⟨r0, hr0, hr0c⟩ := hc
  have hgne : rows.filter (fun s => s.company == c) ≠ [] := by
    apply List.ne_nil_of_mem (a := r0)
    rw [List.mem_filter]
    exact ⟨hr0, by simp [hr0c]⟩
  obtain ⟨r, hrg, hmaxg⟩ := exists_max_period _ hgne
  rw [List.mem_filter] at hrg
  obtain ⟨hr, hrcb⟩ := hrg
  have hrc : r.company = c := by simpa using hrcb
  have hmaxAll : ∀ s ∈ rows, s.company = c → s.period ≤ r.period := by
    intro s hs hsc
    exact hmaxg s (List.mem_filter.mpr ⟨hs, by simp [hsc]⟩)
  have hlatest : isLatest rows r = true := by
    rw [isLatest, List.all_eq_true]
    intro s hs
    by_cases hsc : s.company = r.company
    · have := hmaxAll s hs (hsc.trans hrc)
      simp [this]
    · simp [hsc]
  have hsymm : Symmetric (fun a b : SRow => a.company = b.company → a.period ≠ b.period) := by
    intro a b hab hba hpe
    exact hab hba.symm hpe.symm
  have hcomp : (currentSnapshot rows).filter (fun s => s.company == c) =
      rows.filter (fun s => (s.company == c) && isLatest rows s) := by
    rw [currentSnapshot, List.filter_filter]
  refine ⟨r, hr, hrc, hmaxAll, ?_⟩
  rw [hcomp]
  apply filter_eq_singleton_of_unique rows _ r hr
  · simp [hlatest, hrc]
  · intro x hx hpx
    rw [Bool.and_eq_true] at hpx
    obtain ⟨hxc, hxl⟩ := hpx
    have hxc' : x.company = c := by simpa using hxc
    have hxmax : ∀ s ∈ rows, s.company = x.company → s.period ≤ x.period := by
      rw [isLatest, List.all_eq_true] at hxl
      intro s hs hsc
      have hsx := hxl s hs
      simpa [hsc] using hsx
    have h1 : r.period ≤ x.period := hxmax r hr (hrc.trans hxc'.symm)
    have h2 : x.period ≤ r.period := hmaxAll x hx hxc'
    have hperiod : x.period = r.period := le_antisymm h2 h1
    by_contra hne
    exact (hpw.forall hsymm hx hr hne) (hxc'.trans hrc.symm) hperiod
  · exact count_le_one_of_pairwise rows hpw r

/-- Witness for C4: entity "C" scored at periods 1 and 2; the snapshot
keeps only the period-2 row. -/
theorem c4_current_snapshot_witness :
    (∃ r ∈ [SRow.mk "C" 1 0, SRow.mk "C" 2 0], r.company = "C" ∧
      (∀ s ∈ [SRow.mk "C" 1 0, SRow.mk "C" 2 0], s.company = "C" →
        s.period ≤ r.period) ∧
      (currentSnapshot [SRow.mk "C" 1 0, SRow.mk "C" 2 0]).filter
        (fun s => s.company == "C") = [r]) ∧
    currentSnapshot [SRow.mk "C" 1 0, SRow.mk "C" 2 0] = [SRow.mk "C" 2 0] :=
  ⟨c4_current_snapshot [SRow.mk "C" 1 0, SRow.mk "C" 2 0]
      (by decide) "C" ⟨SRow.mk "C" 1 0, by decide, rfl⟩,
   by decide⟩

lemma evalDeps_ok_iff (name : String) (deps cols : List String) :
    evalDeps name deps cols = .ok () ↔ ∀ d ∈ deps, d ∈ cols := by
  induction deps with
  | nil => simp [evalDeps]
  | cons d rest ih =>
    by_cases hd : d ∈ cols
    · simp [evalDeps, hd, ih]
    · simp only [evalDeps, if_neg hd]
      constructor
      · intro h
        simp at h
      · intro h
        exact absurd (h d (List.mem_cons_self d rest)) hd

lemma calcNewColumns_ok_iff (registry : List (String × DerivedMetric))
    (t : List (String × List FVal)) :
    (∃ ncs, calcNewColumns registry t = .ok ncs) ↔
      ∀ p ∈ registry, ∀ d ∈ p.2.deps, d ∈ t.map Prod.fst := by
  induction registry with
  | nil => simp [calcNewColumns]
  | cons entry rest ih =>
    obtain ⟨name, dm⟩ := entry
    constructor
    · rintro ⟨ncs, hok⟩
      simp only [calcNewColumns] at hok
      rcases hdep : evalDeps name dm.deps (t.map Prod.fst) with e | u
      · rw [hdep] at hok
        simp at hok
      · cases u
        rw [hdep] at hok
        rcases hrest : calcNewColumns rest t with e | ncs'
        · rw [hrest] at hok
          simp at hok
        · intro p hp
          rcases List.mem_cons.mp hp with rfl | hp'
          · exact (evalDeps_ok_iff name dm.deps _).mp hdep
          · exact (ih.mp ⟨ncs', hrest⟩) p hp'
    · intro hall
      have hdep : evalDeps name dm.deps (t.map Prod.fst) = .ok () :=
        (evalDeps_ok_iff _ _ _).mpr (hall (name, dm) (List.mem_cons_self _ _))
      obtain ⟨ncs', hrest⟩ := ih.mpr (fun p hp => hall p (List.mem_cons_of_mem _ hp))
      refine ⟨(name, dm.formula t) :: ncs', ?_⟩
      simp only [calcNewColumns, hdep, hrest]

lemma undefinedRuleRefs_nil_iff (rules : List (String × RuleDef)) (cols : List String) :
    undefinedRuleRefs rules cols = [] ↔ ∀ x ∈ ruleRefs rules, x ∈ cols := by
  induction rules with
  | nil => simp [undefinedRuleRefs, ruleRefs]
  | cons entry rest ih =>
    obtain ⟨flagName, r⟩ := entry
    obtain ⟨metric, threshold, op, pts, cmp⟩ := r
    cases threshold with
    | const q =>
      by_cases h1 : metric ∈ cols <;>
        simp [undefinedRuleRefs, ruleRefs, thresholdRefs, h1, ih]
    | range lo hi =>
      by_cases h1 : metric ∈ cols <;>
        simp [undefinedRuleRefs, ruleRefs, thresholdRefs, h1, ih]
    | metric m =>
      by_cases h1 : metric ∈ cols <;> by_cases h2 : m ∈ cols <;>
        simp [undefinedRuleRefs, ruleRefs, thresholdRefs, h1, h2, ih]

/-- C3 counterexample: two derived-metric formulas each referencing its own
missing column do not produce one error enumerating both references — the
derivation stage aborts at the first missing column, and its error is
identical whether or not the second undefined reference exists. -/
theorem c3_counterexample :
    calculateDerivedMetrics
      [("m1", ⟨["colA"], fun _ => []⟩), ("m2", ⟨["colB"], fun _ => []⟩)] [] =
      .error "Missing column for m1: colA" ∧
    calculateDerivedMetrics [("m1", ⟨["colA"], fun _ => []⟩)] [] =
      .error "Missing column for m1: colA" := by
  constructor <;> rfl

/-- C3 (amended): references made by *rules* are validated by an explicit
pre-flight pass that succeeds exactly when every referenced metric is a
column, and otherwise raises one error collecting all undefined rule
references; references made by derived-metric *formulas* are only checked
implicitly during metric derivation, which succeeds exactly when every
formula dependency is a column and otherwise aborts at the first missing
access. -/
theorem c3_validation (rules : List (String × RuleDef)) (cols : List String)
    (registry : List (String × DerivedMetric)) (t : List (String × List FVal)) :
    (confirmAvailability rules cols = .ok () ↔ ∀ x ∈ ruleRefs rules, x ∈ cols) ∧
    ((∃ t', calculateDerivedMetrics registry t = .ok t') ↔
      ∀ p ∈ registry, ∀ d ∈ p.2.deps, d ∈ t.map Prod.fst) := by
  constructor
  · rw [← undefinedRuleRefs_nil_iff]
    by_cases h : undefinedRuleRefs rules cols = [] <;> simp [confirmAvailability, h]
  · rw [← calcNewColumns_ok_iff]
    rcases h : calcNewColumns registry t with e | ncs <;>
      simp [calculateDerivedMetrics, h]

/-- Witness for C3 (amended): the real rule registry validates against the
columns it references, and a one-formula registry derives successfully when
its dependency is present. -/
theorem c3_validation_witness :
    confirmAvailability RISK_FLAG_DEFINITIONS
      ["ttm_operating_income", "period_value_cumulative_retained_earnings",
       "modified_quick_ratio", "yoy_revenue_change",
       "period_value_ab_loan_balance", "period_value_contributed_capital",
       "inventory_turns_ttm", "ab_line_of_credit_as_percent_of_ttm_revenue",
       "ttm_revenue", "years_of_runway"] = .ok () :=
  (c3_validation RISK_FLAG_DEFINITIONS
    ["ttm_operating_income", "period_value_cumulative_retained_earnings",
     "modified_quick_ratio", "yoy_revenue_change",
     "period_value_ab_loan_balance", "period_value_contributed_capital",
     "inventory_turns_ttm", "ab_line_of_credit_as_percent_of_ttm_revenue",
     "ttm_revenue", "years_of_runway"] [] []).1.mpr (by decide)

/-- C9 counterexample: the snapshot's flagged-rules column is not the
comma-joined list of bare suffix-stripped rule names — each name is wrapped
in single quotes, so a row whose only triggered rule is
`negative_operating_income_ttm_flag` renders as
`'negative_operating_income_ttm'`, not `negative_operating_income_ttm`. -/
theorem c9_counterexample :
    aggregateFlags [("negative_operating_income_ttm_flag", 1)] 1 =
      "\x27negative_operating_income_ttm\x27" ∧
    "\x27negative_operating_income_ttm\x27" ≠ "negative_operating_income_ttm" := by
  constructor
  · rfl
  · decide

/-- C9 (amended): the snapshot builder adds two string columns: one is the
`', '`-joined list of the rule names (underscore-suffix stripped, each
wrapped in single quotes) whose flag equals 1, or `no flags` when no rule
has flag 1; the other is the same rendering of the rule names whose flag
equals -1, or `no missing data` when no rule has flag -1. -/
theorem c9_flag_strings (flags : List (String × ℤ)) :
    ((∀ p ∈ flags, p.2 ≠ 1) → aggregateFlags flags 1 = "no flags") ∧
    ((∃ p ∈ flags, p.2 = 1) →
      aggregateFlags flags 1 =
        joinComma ((flags.filter (fun p => p.2 == 1)).map
          (fun p => "\x27" ++ stripFlag p.1 ++ "\x27"))) ∧
    ((∀ p ∈ flags, p.2 ≠ -1) → aggregateFlags flags (-1) = "no missing data") ∧
    ((∃ p ∈ flags, p.2 = -1) →
      aggregateFlags flags (-1) =
        joinComma ((flags.filter (fun p => p.2 == -1)).map
          (fun p => "\x27" ++ stripFlag p.1 ++ "\x27"))) := by
  refine ⟨?_, ?_, ?_, ?_⟩
  · intro h
    have hfil : flags.filter (fun p => p.2 == 1) = [] :=
      List.filter_eq_nil_iff.mpr (fun p hp => by simpa using h p hp)
    simp [aggregateFlags, hfil]
  · rintro ⟨p, hp, hp1⟩
    have hmem : p ∈ flags.filter (fun q => q.2 == 1) :=
      List.mem_filter.mpr ⟨hp, by simpa using hp1⟩
    have hne : flags.filter (fun q => q.2 == 1) ≠ [] := List.ne_nil_of_mem hmem
    simp [aggregateFlags, hne]
  · intro h
    have hfil : flags.filter (fun p => p.2 == -1) = [] :=
      List.filter_eq_nil_iff.mpr (fun p hp => by simpa using h p hp)
    simp [aggregateFlags, hfil]
  · rintro ⟨p, hp, hp1⟩
    have hmem : p ∈ flags.filter (fun q => q.2 == -1) :=
      List.mem_filter.mpr ⟨hp, by simpa using hp1⟩
    have hne : flags.filter (fun q => q.2 == -1) ≠ [] := List.ne_nil_of_mem hmem
    simp [aggregateFlags, hne]

/-- Witness for C9 (amended) on a snapshot row with one triggered rule and
one missing-data rule. -/
theorem c9_flag_strings_witness :
    aggregateFlags
      [("negative_operating_income_ttm_flag", 1),
       ("negative_retained_earnings_flag", -1)] 1 =
      "\x27negative_operating_income_ttm\x27" ∧
    aggregateFlags
      [("negative_operating_income_ttm_flag", 1),
       ("negative_retained_earnings_flag", -1)] (-1) =
      "\x27negative_retained_earnings\x27" := by
  constructor
  · rw [(c9_flag_strings _).2.1
      ⟨("negative_operating_income_ttm_flag", 1), by simp, rfl⟩]
    rfl
  · rw [(c9_flag_strings _).2.2.2
      ⟨("negative_retained_earnings_flag", -1), by simp, rfl⟩]
    rfl

end RiskPipeline
